import Mathlib

/-!
Verification of the MassKnobModifier repository (two Python source files:
`src/MassKnobModifier.py` and `src/MassKnobModifier/MassKnobModifier.py`).

The embedding models the host application (Nuke) as an external collaborator:
a knob is a record of the queries and capabilities the code consults, and
mutating calls (`setValue` / `setExpression`) are recorded as events instead
of performed.  Python builtins used by the code (`str.strip`, `str.lower`,
`str.split`, `int(...)`, `float(...)`) are modelled on ASCII strings; the
IEEE-754 value of a parsed float is abstracted by its literal text, since no
code path in the repository inspects it.
-/

/-- ASCII whitespace stripped by Python's `str.strip()`. -/
def isPySpace (c : Char) : Bool :=
  c = ' ' || c = '\t' || c = '\n' || c = '\r' || c = '\x0b' || c = '\x0c'

/-- Python `str.strip()` (ASCII whitespace). -/
def pyStrip (s : String) : String :=
  ⟨((s.data.dropWhile isPySpace).reverse.dropWhile isPySpace).reverse⟩

/-- Python `str.rstrip()` (ASCII whitespace). -/
def pyRstrip (s : String) : String :=
  ⟨(s.data.reverse.dropWhile isPySpace).reverse⟩

/-- Python `str.lower()` (ASCII letters). -/
def pyLower (s : String) : String :=
  ⟨s.data.map Char.toLower⟩

/-- Python `c in s` for a single character. -/
def strContains (s : String) (c : Char) : Bool :=
  s.data.contains c

/-- Python `s.startswith(c)` for a single-character prefix test. -/
def strStartsWith (s : String) (c : Char) : Bool :=
  match s.data with
  | [] => false
  | a :: _ => a = c

/-- Numeric value of an ASCII digit. -/
def digitVal (c : Char) : Nat := c.toNat - 48

/-- Remaining digits of a Python digit part: `digit (["_"] digit)*`
(an underscore must sit between two digits). -/
def pyDigitsGo : Nat → List Char → Option Nat
  | acc, [] => some acc
  | acc, '_' :: rest =>
    match rest with
    | [] => none
    | c :: rest2 => if c.isDigit then pyDigitsGo (acc * 10 + digitVal c) rest2 else none
  | acc, c :: rest => if c.isDigit then pyDigitsGo (acc * 10 + digitVal c) rest else none

/-- A full Python digit part: nonempty, starts with a digit. -/
def pyDigitPart (cs : List Char) : Option Nat :=
  match cs with
  | [] => none
  | c :: rest => if c.isDigit then pyDigitsGo (digitVal c) rest else none

/-- Python `int(s)` on an already-stripped ASCII string: optional sign then a
digit part.  Returns `none` where `int` raises `ValueError`. -/
def pyIntOfString (s : String) : Option Int :=
  match s.data with
  | '+' :: rest => (pyDigitPart rest).map Int.ofNat
  | '-' :: rest => (pyDigitPart rest).map (fun n => -(n : Int))
  | cs => (pyDigitPart cs).map Int.ofNat

/-- Mantissa of a Python float literal: `[digitpart] ["." [digitpart]]`
with at least one digit overall. -/
def pyMantissaOk (cs : List Char) : Bool :=
  if cs.contains '.' then
    let left := cs.takeWhile (fun c => c ≠ '.')
    let right := (cs.dropWhile (fun c => c ≠ '.')).tail
    (!right.contains '.') &&
    (left.isEmpty || (pyDigitPart left).isSome) &&
    (right.isEmpty || (pyDigitPart right).isSome) &&
    (!(left.isEmpty && right.isEmpty))
  else (pyDigitPart cs).isSome

/-- Exponent of a Python float literal: optional sign then a digit part. -/
def pyExpOk (cs : List Char) : Bool :=
  match cs with
  | '+' :: r => (pyDigitPart r).isSome
  | '-' :: r => (pyDigitPart r).isSome
  | r => (pyDigitPart r).isSome

/-- Whether Python `float(s)` succeeds on an already-stripped ASCII string
(`[sign] (inf|infinity|nan|mantissa [exponent])`). -/
def pyFloatAccepts (s : String) : Bool :=
  let cs := s.data
  let body :=
    match cs with
    | '+' :: r => r
    | '-' :: r => r
    | r => r
  let low := body.map Char.toLower
  if low = "inf".data || low = "infinity".data || low = "nan".data then true
  else if body.contains 'e' || body.contains 'E' then
    let m := body.takeWhile (fun c => c ≠ 'e' && c ≠ 'E')
    let ex := (body.dropWhile (fun c => c ≠ 'e' && c ≠ 'E')).tail
    pyMantissaOk m && pyExpOk ex
  else pyMantissaOk body

/-- Python `s.split(",")`: split on every comma, keeping empty pieces. -/
def splitOnChar (c : Char) : List Char → List (List Char)
  | [] => [[]]
  | a :: rest =>
    let r := splitOnChar c rest
    if a = c then [] :: r
    else
      match r with
      | [] => [[a]]
      | h :: t => (a :: h) :: t

/-- Python `s.split(c)` for a one-character separator. -/
def pySplit (s : String) (c : Char) : List String :=
  (splitOnChar c s.data).map (fun cs => ⟨cs⟩)

/-- A Python number produced by the parser: an exact integer, or a float
abstracted by its literal text. -/
inductive PyNum where
  | int (n : Int)
  | float (lit : String)
deriving DecidableEq

/-- The tagged union of values `_parse_value` can produce. -/
inductive PyVal where
  | bool (b : Bool)
  | num (x : PyNum)
  | numList (xs : List PyNum)
  | strList (xs : List String)
  | str (s : String)
deriving DecidableEq

/-- Python `str(x)` for a parsed number (float text abstracted by its literal). -/
def pyNumStr : PyNum → String
  | .int n => toString n
  | .float lit => lit

/-- Python `str(x)` for a parsed value.  Lists render as Python list reprs;
string-element quoting is the unescaped single-quote form. -/
def pyStrVal : PyVal → String
  | .bool true => "True"
  | .bool false => "False"
  | .num x => pyNumStr x
  | .numList xs => "[" ++ String.intercalate ", " (xs.map pyNumStr) ++ "]"
  | .strList xs => "[" ++ String.intercalate ", " (xs.map (fun s => "'" ++ s ++ "'")) ++ "]"
  | .str s => s

/-- `lower in ("true", "yes", "on")` from `_parse_value`. -/
def isTrueWord (lower : String) : Bool :=
  lower = "true" || lower = "yes" || lower = "on"

/-- `lower in ("false", "no", "off")` from `_parse_value`. -/
def isFalseWord (lower : String) : Bool :=
  lower = "false" || lower = "no" || lower = "off"

/-- `"." in p or "e" in p.lower()` — the float/int dispatch used by
`_parse_value` both for the whole text and for each comma part. -/
def hasDotOrE (p : String) : Bool :=
  strContains p '.' || strContains (pyLower p) 'e'

/-- `float(p) if ("." in p or "e" in p.lower()) else int(p)`, with a
`ValueError` modelled as `none`. -/
def tryNum (p : String) : Option PyNum :=
  if hasDotOrE p then (if pyFloatAccepts p then some (.float p) else none)
  else (pyIntOfString p).map PyNum.int

/-- The comma-part loop of `_parse_value`: parse every trimmed part as
int-or-float; the first failure abandons the numeric interpretation. -/
def parsePartsNum : List String → Option (List PyNum)
  | [] => some []
  | p :: rest =>
    match tryNum p with
    | none => none
    | some x => (parsePartsNum rest).map (fun l => x :: l)

/-- `_parse_value` from `src/MassKnobModifier/MassKnobModifier.py`
(lines 41-72).  A raised `ValueError` is modelled as `.error` carrying the
exception message. -/
def _parse_value (value_str : String) : Except String PyVal :=
  let v := pyStrip value_str
  if v = "" then .error "Empty value."
  else
    let lower := pyLower v
    if isTrueWord lower then .ok (.bool true)
    else if isFalseWord lower then .ok (.bool false)
    else
      match tryNum v with
      | some x => .ok (.num x)
      | none =>
        if strContains v ',' then
          let parts := (pySplit v ',').map pyStrip
          match parsePartsNum parts with
          | some nums => .ok (.numList nums)
          | none => .ok (.strList parts)
        else .ok (.str v)

deriving instance DecidableEq for Except

/-- The kind of a knob, standing for the `isinstance` checks the code
performs (`nuke.String_Knob`, `nuke.Enumeration_Knob` with its option
labels, and the three structural kinds skipped by the knob reducer). -/
inductive KnobKind where
  | stringK
  | enumK (opts : List String)
  | tabK
  | textK
  | pyscriptK
  | otherK
deriving DecidableEq

/-- A parameter handle, modelling exactly the queries and capabilities the
code consults on a Nuke knob.  `visible`/`enabled`/`arraySize` are `none`
when the host query raises (the code wraps them in `try`).
`supportsIndexedExpr` / `supportsIndexedSet` tell whether the per-index
forms `setExpression(e, i)` / `setValue(v, i)` are supported — when not,
the host raises `TypeError`, which the code catches.  `setRaises` models a
host error (not a `TypeError`) raised by any `setValue` call; `currentText`
is the text returned by `value()` (consulted only for the label knob). -/
structure Knob where
  name : String
  kind : KnobKind := .otherK
  visible : Option Bool := some true
  enabled : Option Bool := some true
  arraySize : Option Nat := some 1
  supportsIndexedExpr : Bool := true
  supportsIndexedSet : Bool := true
  currentText : String := ""
  setRaises : Option String := none
deriving DecidableEq

/-- A mutating call recorded against a knob: `setExpression(e[, i])` or
`setValue(v[, i])`. -/
inductive KnobEv where
  | setExpr (e : String) (idx : Option Nat)
  | setVal (v : PyVal) (idx : Option Nat)
deriving DecidableEq

/-- `", ".join(...)` from `_coerce_for_knob`. -/
def joinPyStrs (xs : List String) : String := String.intercalate ", " xs

/-- `parsed in opts` / `opts.index(parsed)`: index of the first exact match. -/
def findIdxExact (opts : List String) (s : String) : Option Nat :=
  opts.findIdx? (fun o => o = s)

/-- The case-insensitive fallback loop of `_coerce_for_knob`: first index
whose lowered label equals the lowered input. -/
def findIdxCI (opts : List String) (low : String) : Option Nat :=
  opts.findIdx? (fun o => pyLower o = low)

/-- `_coerce_for_knob` from `src/MassKnobModifier/MassKnobModifier.py`
(lines 75-111): string knobs receive the string form of the value (lists
joined with ", "), enumeration knobs map a string to the option index
(exact match first, then case-insensitive), anything else is unchanged. -/
def _coerce_for_knob (knob : Knob) (parsed : PyVal) : PyVal :=
  match knob.kind with
  | .stringK =>
    match parsed with
    | .numList xs => .str (joinPyStrs (xs.map pyNumStr))
    | .strList xs => .str (joinPyStrs xs)
    | p => .str (pyStrVal p)
  | .enumK opts =>
    match parsed with
    | .str s =>
      (match findIdxExact opts s with
       | some i => .num (.int i)
       | none =>
         match findIdxCI opts (pyLower s) with
         | some i => .num (.int i)
         | none => .str s)
    | p => p
  | _ => parsed

/-- The element-by-element assignment loop of `_set_knob_value_or_expression`
(a `TypeError` on the first indexed `setValue` falls back to one whole-value
assignment and stops; a non-`TypeError` host error escapes). -/
def assignListEvents (knob : Knob) (whole : PyVal) (elems : List PyVal) :
    Except String (String × List KnobEv) :=
  match elems with
  | [] => .ok ("value", [])
  | _ =>
    if knob.supportsIndexedSet then
      match knob.setRaises with
      | some msg => .error msg
      | none => .ok ("value", elems.enum.map (fun p => KnobEv.setVal p.2 (some p.1)))
    else
      match knob.setRaises with
      | some msg => .error msg
      | none => .ok ("value", [KnobEv.setVal whole none])

/-- `_set_knob_value_or_expression` from
`src/MassKnobModifier/MassKnobModifier.py` (lines 114-171).  Returns the
reported mode together with the recorded mutating calls; a raised
exception is `.error` with its message. -/
def _set_knob_value_or_expression (knob : Knob) (raw_value_str : String) :
    Except String (String × List KnobEv) :=
  let s := pyStrip raw_value_str
  if s = "" then .error "Empty value."
  else if strStartsWith s '=' then
    let expr := pyStrip (s.drop 1)
    if expr = "" then .error "Empty expression."
    else
      let n := knob.arraySize.getD 1
      if 1 < n then
        if knob.supportsIndexedExpr then
          .ok ("expression", (List.range n).map (fun i => KnobEv.setExpr expr (some i)))
        else .ok ("expression", [KnobEv.setExpr expr none])
      else .ok ("expression", [KnobEv.setExpr expr none])
  else
    match _parse_value s with
    | .error e => .error e
    | .ok parsed0 =>
      let parsed1 := _coerce_for_knob knob parsed0
      let parsed2 :=
        if knob.name = "label" && !strStartsWith s '=' then
          let existing := knob.currentText
          let newText := pyStrVal parsed1
          if existing ≠ "" && pyStrip existing ≠ "" then
            PyVal.str (pyRstrip existing ++ "\n" ++ newText)
          else PyVal.str newText
        else parsed1
      match parsed2 with
      | .numList xs => assignListEvents knob (.numList xs) (xs.map PyVal.num)
      | .strList xs => assignListEvents knob (.strList xs) (xs.map PyVal.str)
      | p =>
        match knob.setRaises with
        | some msg => .error msg
        | none => .ok ("value", [KnobEv.setVal p none])

/-- A target node: display name, class tag, and its knob dictionary
(modelled as an association list with distinct keys).  `fatal` models an
interrupt raised while this node is processed that is not an `Exception`
(for example `KeyboardInterrupt`), which the loop's `except Exception`
handler does not catch and which therefore escapes the per-target
handling. -/
structure Node where
  name : String
  klass : String := ""
  knobs : List (String × Knob) := []
  fatal : Option String := none
deriving DecidableEq

/-- `node.knob(name)`: the knob stored under this name, if any. -/
def knobLookup (n : Node) (k : String) : Option Knob :=
  (n.knobs.find? (fun p => p.1 = k)).map (fun p => p.2)

/-- `EXCLUDE_KNOBS` from `src/MassKnobModifier/MassKnobModifier.py`
(lines 11-38). -/
def EXCLUDE_KNOBS : List String :=
  ["autolabel", "bookmark", "cached", "enable", "enable_mix_luminance",
   "help", "hide_input", "tile_color", "gl_color", "icon", "indicators",
   "inject", "Mask", "maskFrom", "maskFromFlag", "mix_luminance",
   "note_font_color", "onDestroy", "panel", "process_mask",
   "postage_stamp", "postage_stamp_frame", "useLifetime", "selected",
   "xpos", "ypos"]

/-- The three lifecycle-hook names skipped unconditionally by the reducer. -/
def lifecycleNames : List String := ["knobChanged", "onCreate", "updateUI"]

/-- Case-sensitive lexicographic comparison on code points — the order
Python's `sorted` uses on strings. -/
def charListLe : List Char → List Char → Bool
  | [], _ => true
  | _ :: _, [] => false
  | a :: as, b :: bs =>
    if a.toNat < b.toNat then true
    else if a.toNat = b.toNat then charListLe as bs
    else false

/-- `strLe a b`: `a` sorts no later than `b` (code-point lexicographic). -/
def strLe (a b : String) : Bool := charListLe a.data b.data

/-- `_nodes_by_class` from `src/MassKnobModifier/MassKnobModifier.py`
(lines 183-197).  The host query `_all_nodes_root()` is passed in
explicitly as `allNodes`; `none` models a `None` class name. -/
def _nodes_by_class (class_name : Option String) (allNodes : List Node) : List Node :=
  match class_name with
  | none => []
  | some cn =>
    let target := pyStrip cn
    if target = "" then []
    else
      let exact := allNodes.filter (fun n => n.klass = target)
      if exact ≠ [] then exact
      else allNodes.filter (fun n => pyLower n.klass = pyLower target)

/-- The body of the per-name filter loop of `_common_knobs_for_nodes`:
keep a common name when its knob on the first node exists, is not a
lifecycle hook, is not reported invisible or disabled (a raised query —
`none` — keeps it), and is not structural. -/
def keepKnob (n0 : Node) (k : String) : Bool :=
  match knobLookup n0 k with
  | none => false
  | some knob =>
    if lifecycleNames.contains k then false
    else
      let visOk :=
        match knob.visible with
        | none => true
        | some false => false
        | some true =>
          match knob.enabled with
          | none => true
          | some b => b
      if !visOk then false
      else
        match knob.kind with
        | .tabK => false
        | .textK => false
        | .pyscriptK => false
        | _ => true

/-- `_common_knobs_for_nodes` from `src/MassKnobModifier/MassKnobModifier.py`
(lines 200-233).  Python iterates an unordered set and then sorts the
deduplicated result, so the membership-wise translation below fixes an
iteration order without changing the output. -/
def _common_knobs_for_nodes (nodes : List Node) : List String :=
  match nodes with
  | [] => []
  | n0 :: rest =>
    let common0 := ((n0.knobs.map Prod.fst).dedup).filter
      (fun k => rest.all (fun n => (n.knobs.map Prod.fst).contains k))
    if common0 = [] then []
    else
      let common1 := common0.filter (fun k => !EXCLUDE_KNOBS.contains k)
      let visibleCommon := common1.filter (keepKnob n0)
      List.insertionSort (fun a b => strLe a b = true) visibleCommon.dedup

/-- An event of the batch driver: the undo transaction opening/closing, or
a mutating knob call performed on a named node. -/
inductive Ev where
  | undoBegin
  | undoEnd
  | knob (node : String) (e : KnobEv)
deriving DecidableEq

/-- Result of the per-target loop of `mass_knob_modifier`: the counters and
error list it accumulates, the mutating calls performed, and — when a
non-`Exception` interrupt escaped the per-target handler — its message. -/
structure LoopRes where
  changed : Nat
  errors : List String
  modeUsed : Option String
  evs : List Ev
  interrupted : Option String
deriving DecidableEq

/-- The per-target loop of `mass_knob_modifier`
(`src/MassKnobModifier/MassKnobModifier.py` lines 421-429), written as
structural recursion over the target list: a node without the knob is
skipped, a successful apply bumps `changed` and overwrites `modeUsed`, a
caught `Exception` appends `"<name>: <message>"` and continues. -/
def applyLoop (knobName valueStr : String) : List Node → LoopRes
  | [] => ⟨0, [], none, [], none⟩
  | n :: rest =>
    match n.fatal with
    | some msg => ⟨0, [], none, [], some msg⟩
    | none =>
      match knobLookup n knobName with
      | none => applyLoop knobName valueStr rest
      | some k =>
        match _set_knob_value_or_expression k valueStr with
        | .ok res =>
          let r := applyLoop knobName valueStr rest
          ⟨r.changed + 1, r.errors, some (r.modeUsed.getD res.1),
           res.2.map (Ev.knob n.name) ++ r.evs, r.interrupted⟩
        | .error e =>
          let r := applyLoop knobName valueStr rest
          ⟨r.changed, (n.name ++ ": " ++ e) :: r.errors, r.modeUsed, r.evs, r.interrupted⟩

/-- Outcome of one driver invocation: aborted on the blank-value
precondition, a normal report, or an interrupt that escaped the loop. -/
inductive DriverResult where
  | emptyValue
  | report (changed : Nat) (errors : List String) (modeUsed : Option String)
  | interrupted (msg : String)
deriving DecidableEq

/-- The apply phase of `mass_knob_modifier`
(`src/MassKnobModifier/MassKnobModifier.py` lines 375-377 and 415-431):
the blank-value precondition, then the per-target loop bracketed by
`nuke.Undo().begin(...)` / `try ... finally: nuke.Undo().end()`, so the
closing event is appended on the normal and on the interrupted exit path
alike.  GUI and target resolution are host collaborators outside the
model. -/
def mass_knob_modifier (nodes : List Node) (knob_name value_str : String) :
    DriverResult × List Ev :=
  if pyStrip value_str = "" then (.emptyValue, [])
  else
    let r := applyLoop knob_name value_str nodes
    let evs := Ev.undoBegin :: (r.evs ++ [Ev.undoEnd])
    match r.interrupted with
    | some msg => (.interrupted msg, evs)
    | none => (.report r.changed r.errors r.modeUsed, evs)

namespace Flat

/-- `_parse_value` from the top-level `src/MassKnobModifier.py`
(lines 43-84), transcribed separately from that file. -/
def _parse_value (value_str : String) : Except String PyVal :=
  let v := pyStrip value_str
  if v = "" then .error "Empty value."
  else
    let lower := pyLower v
    if isTrueWord lower then .ok (.bool true)
    else if isFalseWord lower then .ok (.bool false)
    else
      match tryNum v with
      | some x => .ok (.num x)
      | none =>
        if strContains v ',' then
          let parts := (pySplit v ',').map pyStrip
          match parsePartsNum parts with
          | some nums => .ok (.numList nums)
          | none => .ok (.strList parts)
        else .ok (.str v)

end Flat

def nodeA : Node :=
  { name := "A", klass := "Blur",
    knobs := [("size", { name := "size" }), ("mix", { name := "mix" })] }

def nodeB : Node :=
  { name := "B", klass := "Blur",
    knobs := [("size", { name := "size" }),
              ("mix", { name := "mix", setRaises := some "boom" }),
              ("xpos", { name := "xpos" })] }

def nodeC : Node :=
  { name := "C", klass := "Grade", knobs := [("mix", { name := "mix" })] }

/-- A triple-arity knob used to witness C3. -/
def knobArr3 : Knob := { name := "size", arraySize := some 3 }

/-- The string-kind knob of the spec's "frame" scenario. -/
def frameKnob : Knob := { name := "frame", kind := .stringK }

/-- The enumeration knob of the spec's "filter" scenario. -/
def filterKnob : Knob := { name := "filter", kind := .enumK ["nearest", "bilinear", "cubic"] }

/-- The "label" knob already holding "Pass1", from the spec's scenario. -/
def labelKnob : Knob := { name := "label", currentText := "Pass1" }

/-- A node whose processing raises a non-`Exception` interrupt. -/
def fatalNode : Node := { name := "F", fatal := some "interrupt" }

example : _parse_value " TRUE " = .ok (.bool true) := by decide
example : _parse_value "off" = .ok (.bool false) := by decide
example : _parse_value "3" = .ok (.num (.int 3)) := by decide
example : _parse_value "-42" = .ok (.num (.int (-42))) := by decide
example : _parse_value "3.0" = .ok (.num (.float "3.0")) := by decide
example : _parse_value "3e2" = .ok (.num (.float "3e2")) := by decide
example : _parse_value "1,2,3" = .ok (.numList [.int 1, .int 2, .int 3]) := by decide
example : _parse_value "1,a,3" = .ok (.strList ["1", "a", "3"]) := by decide
example : _parse_value "hello" = .ok (.str "hello") := by decide
example : _parse_value "   " = .error "Empty value." := by decide
example : _parse_value "1.5, 2" = .ok (.numList [.float "1.5", .int 2]) := by decide
example : _parse_value "e" = .ok (.str "e") := by decide

example :
    _set_knob_value_or_expression knobArr3 "=x+1" =
      .ok ("expression",
        [.setExpr "x+1" (some 0), .setExpr "x+1" (some 1), .setExpr "x+1" (some 2)]) := by
  decide

example :
    _set_knob_value_or_expression
      { name := "size", arraySize := some 3, supportsIndexedExpr := false } "= x+1 " =
      .ok ("expression", [.setExpr "x+1" none]) := by decide

example :
    _set_knob_value_or_expression { name := "size" } "2.5" =
      .ok ("value", [.setVal (.num (.float "2.5")) none]) := by decide

example :
    _set_knob_value_or_expression frameKnob "10" =
      .ok ("value", [.setVal (.str "10") none]) := by decide

example :
    _set_knob_value_or_expression filterKnob "Bilinear" =
      .ok ("value", [.setVal (.num (.int 1)) none]) := by decide

example :
    _set_knob_value_or_expression labelKnob "Pass2" =
      .ok ("value", [.setVal (.str "Pass1\nPass2") none]) := by decide

example :
    _set_knob_value_or_expression { name := "label", currentText := "  " } "Pass2" =
      .ok ("value", [.setVal (.str "Pass2") none]) := by decide

example :
    _set_knob_value_or_expression { name := "size" } "  " = .error "Empty value." := by decide

example :
    _set_knob_value_or_expression { name := "size" } " = " = .error "Empty expression." := by
  decide

example :
    _set_knob_value_or_expression { name := "translate", arraySize := some 2 } "1,2" =
      .ok ("value", [.setVal (.num (.int 1)) (some 0), .setVal (.num (.int 2)) (some 1)]) := by
  decide

example :
    _set_knob_value_or_expression
      { name := "translate", arraySize := some 2, supportsIndexedSet := false } "1,2" =
      .ok ("value", [.setVal (.numList [.int 1, .int 2]) none]) := by decide

example : _common_knobs_for_nodes [nodeA, nodeB] = ["mix", "size"] := by decide
example : _common_knobs_for_nodes [nodeB, nodeC] = ["mix"] := by decide
example : _nodes_by_class (some " Blur ") [nodeA, nodeB, nodeC] = [nodeA, nodeB] := by decide
example : _nodes_by_class (some "blur") [nodeA, nodeB, nodeC] = [nodeA, nodeB] := by decide
example : _nodes_by_class (some "") [nodeA, nodeB, nodeC] = [] := by decide

example :
    mass_knob_modifier [nodeA, nodeB, nodeC] "size" "2.5" =
      (.report 2 [] (some "value"),
       [.undoBegin,
        .knob "A" (.setVal (.num (.float "2.5")) none),
        .knob "B" (.setVal (.num (.float "2.5")) none),
        .undoEnd]) := by decide

example :
    mass_knob_modifier [nodeA, nodeB, nodeC] "mix" "0.5" =
      (.report 2 ["B: boom"] (some "value"),
       [.undoBegin,
        .knob "A" (.setVal (.num (.float "0.5")) none),
        .knob "C" (.setVal (.num (.float "0.5")) none),
        .undoEnd]) := by decide

example : mass_knob_modifier [nodeA] "size" "  " = (.emptyValue, []) := by decide

example :
    mass_knob_modifier [nodeA] "size" "=" =
      (.report 0 ["A: Empty expression."] none, [.undoBegin, .undoEnd]) := by decide

example :
    mass_knob_modifier [fatalNode] "size" "1" =
      (.interrupted "interrupt", [.undoBegin, .undoEnd]) := by decide

/-- C1: literal parsing follows this order after trimming: the boolean
keywords (case-insensitive) first; otherwise text containing '.' or
'e'/'E' parses as a float and other text as an integer, numeric failure
falling through; otherwise text with a comma splits on commas, each part
trimmed and parsed int-or-float by the same rule, any numeric failure
turning the whole result into the list of trimmed string parts; otherwise
the trimmed text itself is the result.  Includes the spec's "1,a,3" and
"1,2,3" examples. -/
theorem C1_literal_parse_order :
    (∀ s : String, isTrueWord (pyLower (pyStrip s)) = true →
      _parse_value s = .ok (.bool true))
    ∧ (∀ s : String, isFalseWord (pyLower (pyStrip s)) = true →
      _parse_value s = .ok (.bool false))
    ∧ (∀ s : String, isTrueWord (pyLower (pyStrip s)) = false →
      isFalseWord (pyLower (pyStrip s)) = false →
      hasDotOrE (pyStrip s) = true → pyFloatAccepts (pyStrip s) = true →
      _parse_value s = .ok (.num (.float (pyStrip s))))
    ∧ (∀ (s : String) (n : Int), isTrueWord (pyLower (pyStrip s)) = false →
      isFalseWord (pyLower (pyStrip s)) = false →
      hasDotOrE (pyStrip s) = false → pyIntOfString (pyStrip s) = some n →
      _parse_value s = .ok (.num (.int n)))
    ∧ (∀ (s : String) (nums : List PyNum), isTrueWord (pyLower (pyStrip s)) = false →
      isFalseWord (pyLower (pyStrip s)) = false →
      tryNum (pyStrip s) = none → strContains (pyStrip s) ',' = true →
      parsePartsNum ((pySplit (pyStrip s) ',').map pyStrip) = some nums →
      _parse_value s = .ok (.numList nums))
    ∧ (∀ s : String, isTrueWord (pyLower (pyStrip s)) = false →
      isFalseWord (pyLower (pyStrip s)) = false →
      tryNum (pyStrip s) = none → strContains (pyStrip s) ',' = true →
      parsePartsNum ((pySplit (pyStrip s) ',').map pyStrip) = none →
      _parse_value s = .ok (.strList ((pySplit (pyStrip s) ',').map pyStrip)))
    ∧ (∀ s : String, pyStrip s ≠ "" → isTrueWord (pyLower (pyStrip s)) = false →
      isFalseWord (pyLower (pyStrip s)) = false →
      tryNum (pyStrip s) = none → strContains (pyStrip s) ',' = false →
      _parse_value s = .ok (.str (pyStrip s)))
    ∧ _parse_value "1,a,3" = .ok (.strList ["1", "a", "3"])
    ∧ _parse_value "1,2,3" = .ok (.numList [.int 1, .int 2, .int 3]) := by
  refine ⟨?_, ?_, ?_, ?_, ?_, ?_, ?_, by decide, by decide⟩
  · intro s h
    have hne : pyStrip s ≠ "" := by
      intro h0; rw [h0] at h; exact absurd h (by decide)
    simp [_parse_value, hne, h]
  · intro s h
    have hne : pyStrip s ≠ "" := by
      intro h0; rw [h0] at h; exact absurd h (by decide)
    have h1 : isTrueWord (pyLower (pyStrip s)) = false := by
      simp only [isFalseWord, Bool.or_eq_true, decide_eq_true_eq] at h
      rcases h with (h | h) | h <;> rw [h] <;> decide
    simp [_parse_value, hne, h, h1]
  · intro s h1 h2 h3 h4
    have hne : pyStrip s ≠ "" := by
      intro h0; rw [h0] at h4; exact absurd h4 (by decide)
    have htry : tryNum (pyStrip s) = some (.float (pyStrip s)) := by
      simp [tryNum, h3, h4]
    simp [_parse_value, hne, h1, h2, htry]
  · intro s n h1 h2 h3 h4
    have hne : pyStrip s ≠ "" := by
      intro h0
      have hnone : pyIntOfString "" = none := by decide
      rw [h0, hnone] at h4
      exact Option.noConfusion h4
    have htry : tryNum (pyStrip s) = some (.int n) := by
      simp [tryNum, h3, h4]
    simp [_parse_value, hne, h1, h2, htry]
  · intro s nums h1 h2 htry hc hp
    have hne : pyStrip s ≠ "" := by
      intro h0; rw [h0] at hc; exact absurd hc (by decide)
    simp [_parse_value, hne, h1, h2, htry, hc, hp]
  · intro s h1 h2 htry hc hp
    have hne : pyStrip s ≠ "" := by
      intro h0; rw [h0] at hc; exact absurd hc (by decide)
    simp [_parse_value, hne, h1, h2, htry, hc, hp]
  · intro s hne h1 h2 htry hc
    simp [_parse_value, hne, h1, h2, htry, hc]

/-- Witness for C1 at concrete inputs: a boolean keyword, a float form, an
integer form and a plain string, each hypothesis checked by `decide`. -/
theorem C1_literal_parse_order_witness :
    (isTrueWord (pyLower (pyStrip " YES ")) = true
      ∧ _parse_value " YES " = .ok (.bool true))
    ∧ (pyFloatAccepts (pyStrip "3e2") = true
      ∧ _parse_value "3e2" = .ok (.num (.float "3e2")))
    ∧ (pyIntOfString (pyStrip "3") = some 3
      ∧ _parse_value "3" = .ok (.num (.int 3)))
    ∧ (pyStrip "hello" ≠ "" ∧ _parse_value "hello" = .ok (.str "hello")) :=
  ⟨⟨by decide, C1_literal_parse_order.1 " YES " (by decide)⟩,
   ⟨by decide,
    C1_literal_parse_order.2.2.1 "3e2" (by decide) (by decide) (by decide) (by decide)⟩,
   ⟨by decide,
    C1_literal_parse_order.2.2.2.1 "3" 3 (by decide) (by decide) (by decide) (by decide)⟩,
   ⟨by decide,
    C1_literal_parse_order.2.2.2.2.2.2.1 "hello" (by decide) (by decide) (by decide)
      (by decide) (by decide)⟩⟩

/-- C10: the literal parser in `src/MassKnobModifier.py` and the one in
`src/MassKnobModifier/MassKnobModifier.py` are extensionally equal: same
parsed value, and the same empty-value error on blank input. -/
theorem C10_parse_copies_agree : ∀ s : String, Flat._parse_value s = _parse_value s :=
  fun _ => rfl

/-- C3: an input whose trimmed form starts with '=' with a non-empty
remainder always resolves as an expression bind (only `setExpression`
calls, mode "expression"), never as a literal, whatever follows the '=':
arity-query failure behaves as arity 1; arity > 1 binds at every index
0..arity-1, falling back to one whole-handle bind when per-index binding
is unsupported; arity ≤ 1 binds once. -/
theorem C3_expression_bind :
    ∀ (k : Knob) (raw : String),
    strStartsWith (pyStrip raw) '=' = true →
    pyStrip ((pyStrip raw).drop 1) ≠ "" →
    ∃ t : List KnobEv,
      _set_knob_value_or_expression k raw = .ok ("expression", t)
      ∧ (∀ ev ∈ t, ∃ i, ev = KnobEv.setExpr (pyStrip ((pyStrip raw).drop 1)) i)
      ∧ (k.arraySize = none →
          t = [KnobEv.setExpr (pyStrip ((pyStrip raw).drop 1)) none])
      ∧ (∀ n, k.arraySize = some n → 1 < n → k.supportsIndexedExpr = true →
          t = (List.range n).map
            (fun i => KnobEv.setExpr (pyStrip ((pyStrip raw).drop 1)) (some i)))
      ∧ (∀ n, k.arraySize = some n → 1 < n → k.supportsIndexedExpr = false →
          t = [KnobEv.setExpr (pyStrip ((pyStrip raw).drop 1)) none])
      ∧ (∀ n, k.arraySize = some n → n ≤ 1 →
          t = [KnobEv.setExpr (pyStrip ((pyStrip raw).drop 1)) none]) := by
  intro k raw h1 h2
  have hne : pyStrip raw ≠ "" := by
    intro h0; rw [h0] at h1; exact absurd h1 (by decide)
  refine ⟨if 1 < k.arraySize.getD 1 then
      (if k.supportsIndexedExpr then
        (List.range (k.arraySize.getD 1)).map
          (fun i => KnobEv.setExpr (pyStrip ((pyStrip raw).drop 1)) (some i))
       else [KnobEv.setExpr (pyStrip ((pyStrip raw).drop 1)) none])
    else [KnobEv.setExpr (pyStrip ((pyStrip raw).drop 1)) none], ?_, ?_, ?_, ?_, ?_, ?_⟩
  · simp only [_set_knob_value_or_expression, hne, h1, h2]
    simp [hne, h1, h2]
    split_ifs <;> rfl
  · intro ev hev
    split_ifs at hev with hgt hsupp
    · obtain ⟨i, -, hi⟩ := List.mem_map.mp hev
      exact ⟨some i, hi.symm⟩
    · simp at hev; exact ⟨none, hev⟩
    · simp at hev; exact ⟨none, hev⟩
  · intro hnone; simp [hnone]
  · intro n hn hgt hsupp; simp [hn, hgt, hsupp]
  · intro n hn hgt hsupp; simp [hn, hgt, hsupp]
  · intro n hn hle
    have hngt : ¬ 1 < n := by omega
    simp [hn, hngt]

/-- Witness for C3: `"=x+1"` on a 3-component knob binds the expression at
indices 0, 1 and 2. -/
theorem C3_expression_bind_witness :
    _set_knob_value_or_expression knobArr3 "=x+1" =
      .ok ("expression",
        [.setExpr "x+1" (some 0), .setExpr "x+1" (some 1), .setExpr "x+1" (some 2)]) := by
  obtain ⟨t, hok, -, -, h4, -, -⟩ := C3_expression_bind knobArr3 "=x+1" (by decide) (by decide)
  rw [hok, h4 3 rfl (by decide) rfl]
  decide

/-- C7: kind-specific coercion before assignment: a string-kind knob
receives the string form of the parsed value (a list rendered with ", ",
and input "10" becomes the string "10"); an enumeration knob receiving a
string converts an exact option-label match to its index, otherwise tries
a case-insensitive match, otherwise leaves the raw string unchanged. -/
theorem C7_kind_coercion :
    (∀ (k : Knob) (xs : List PyNum), k.kind = .stringK →
      _coerce_for_knob k (.numList xs) = .str (joinPyStrs (xs.map pyNumStr)))
    ∧ (∀ (k : Knob) (xs : List String), k.kind = .stringK →
      _coerce_for_knob k (.strList xs) = .str (joinPyStrs xs))
    ∧ (∀ (k : Knob) (p : PyVal), k.kind = .stringK →
      (∀ xs, p ≠ .numList xs) → (∀ xs, p ≠ .strList xs) →
      _coerce_for_knob k p = .str (pyStrVal p))
    ∧ (∀ k : Knob, k.kind = .stringK →
      _parse_value "10" = .ok (.num (.int 10))
      ∧ _coerce_for_knob k (.num (.int 10)) = .str "10")
    ∧ (∀ (k : Knob) (opts : List String) (s : String) (i : Nat), k.kind = .enumK opts →
      findIdxExact opts s = some i →
      _coerce_for_knob k (.str s) = .num (.int i))
    ∧ (∀ (k : Knob) (opts : List String) (s : String) (i : Nat), k.kind = .enumK opts →
      findIdxExact opts s = none → findIdxCI opts (pyLower s) = some i →
      _coerce_for_knob k (.str s) = .num (.int i))
    ∧ (∀ (k : Knob) (opts : List String) (s : String), k.kind = .enumK opts →
      findIdxExact opts s = none → findIdxCI opts (pyLower s) = none →
      _coerce_for_knob k (.str s) = .str s) := by
  refine ⟨?_, ?_, ?_, ?_, ?_, ?_, ?_⟩
  · intro k xs hk; simp [_coerce_for_knob, hk]
  · intro k xs hk; simp [_coerce_for_knob, hk]
  · intro k p hk hn1 hn2
    cases p with
    | numList xs => exact absurd rfl (hn1 xs)
    | strList xs => exact absurd rfl (hn2 xs)
    | bool b => simp [_coerce_for_knob, hk]
    | num x => simp [_coerce_for_knob, hk]
    | str s => simp [_coerce_for_knob, hk]
  · intro k hk
    refine ⟨by decide, ?_⟩
    simp [_coerce_for_knob, hk, pyStrVal, pyNumStr]
    decide
  · intro k opts s i hk hex; simp [_coerce_for_knob, hk, hex]
  · intro k opts s i hk hex hci; simp [_coerce_for_knob, hk, hex, hci]
  · intro k opts s hk hex hci; simp [_coerce_for_knob, hk, hex, hci]

/-- Witness for C7: "10" on a string knob stays the string "10"; on the
"filter" enumeration, "Bilinear" resolves case-insensitively to index 1
and an unknown label stays a raw string. -/
theorem C7_kind_coercion_witness :
    (_parse_value "10" = .ok (.num (.int 10))
      ∧ _coerce_for_knob frameKnob (.num (.int 10)) = .str "10")
    ∧ _coerce_for_knob filterKnob (.str "Bilinear") = .num (.int 1)
    ∧ _coerce_for_knob filterKnob (.str "mitchell") = .str "mitchell" :=
  ⟨C7_kind_coercion.2.2.2.1 frameKnob rfl,
   C7_kind_coercion.2.2.2.2.2.1 filterKnob ["nearest", "bilinear", "cubic"] "Bilinear" 1
     rfl (by decide) (by decide),
   C7_kind_coercion.2.2.2.2.2.2 filterKnob ["nearest", "bilinear", "cubic"] "mitchell"
     rfl (by decide) (by decide)⟩

/-- C8: for a non-expression input on a knob literally named "label", new
text is appended to existing non-blank text with a newline (existing text
right-stripped) instead of overwriting; with no existing text the new text
replaces it.  Includes the spec's "Pass1"/"Pass2" scenario. -/
theorem C8_label_append :
    (∀ (k : Knob) (raw : String), k.name = "label" →
      strStartsWith (pyStrip raw) '=' = false →
      pyStrip raw ≠ "" →
      k.setRaises = none →
      ∀ p : PyVal, _parse_value (pyStrip raw) = .ok p →
      ((pyStrip k.currentText ≠ "" →
        _set_knob_value_or_expression k raw =
          .ok ("value",
            [KnobEv.setVal
              (.str (pyRstrip k.currentText ++ "\n" ++ pyStrVal (_coerce_for_knob k p)))
              none]))
       ∧ (pyStrip k.currentText = "" →
        _set_knob_value_or_expression k raw =
          .ok ("value", [KnobEv.setVal (.str (pyStrVal (_coerce_for_knob k p))) none]))))
    ∧ _set_knob_value_or_expression labelKnob "Pass2" =
        .ok ("value", [KnobEv.setVal (.str "Pass1\nPass2") none]) := by
  constructor
  · intro k raw hname hnoeq hne hsr p hp
    constructor
    · intro hstrip
      have hex : k.currentText ≠ "" := by
        intro h0; rw [h0] at hstrip; exact hstrip rfl
      simp [_set_knob_value_or_expression, hne, hnoeq, hp, hname, hex, hstrip, hsr]
    · intro hstrip
      simp [_set_knob_value_or_expression, hne, hnoeq, hp, hname, hstrip, hsr]
  · decide

theorem charListLe_total : ∀ l1 l2 : List Char, charListLe l1 l2 = true ∨ charListLe l2 l1 = true := by
  intro l1
  induction l1 with
  | nil => intro l2; left; rfl
  | cons a as ih =>
    intro l2
    cases l2 with
    | nil => right; rfl
    | cons b bs =>
      by_cases hlt : a.toNat < b.toNat
      · left; simp [charListLe, hlt]
      · by_cases heq : a.toNat = b.toNat
        · have hba : ¬ b.toNat < a.toNat := by omega
          have hbe : b.toNat = a.toNat := heq.symm
          rcases ih bs with h | h
          · left; simp [charListLe, hlt, heq, h]
          · right; simp [charListLe, hba, hbe, h]
        · have hgt : b.toNat < a.toNat := by omega
          right; simp [charListLe, hgt]

theorem charListLe_trans :
    ∀ l1 l2 l3 : List Char,
    charListLe l1 l2 = true → charListLe l2 l3 = true → charListLe l1 l3 = true := by
  intro l1
  induction l1 with
  | nil => intro l2 l3 _ _; rfl
  | cons a as ih =>
    intro l2 l3 h1 h2
    cases l2 with
    | nil => simp [charListLe] at h1
    | cons b bs =>
      cases l3 with
      | nil => simp [charListLe] at h2
      | cons c cs =>
        simp only [charListLe] at h1 h2 ⊢
        by_cases hab : a.toNat < b.toNat
        · by_cases hbc : b.toNat < c.toNat
          · have : a.toNat < c.toNat := by omega
            simp [this]
          · by_cases hbc2 : b.toNat = c.toNat
            · have : a.toNat < c.toNat := by omega
              simp [this]
            · simp [hbc, hbc2] at h2
        · by_cases hab2 : a.toNat = b.toNat
          · by_cases hbc : b.toNat < c.toNat
            · have : a.toNat < c.toNat := by omega
              simp [this]
            · by_cases hbc2 : b.toNat = c.toNat
              · have hac : ¬ a.toNat < c.toNat := by omega
                have hac2 : a.toNat = c.toNat := by omega
                rw [if_neg hab, if_pos hab2] at h1
                rw [if_neg hbc, if_pos hbc2] at h2
                simp [hac, hac2, ih bs cs h1 h2]
              · simp [hbc, hbc2] at h2
          · simp [hab, hab2] at h1

instance : IsTotal String (fun a b => strLe a b = true) :=
  ⟨fun a b => charListLe_total a.data b.data⟩

instance : IsTrans String (fun a b => strLe a b = true) :=
  ⟨fun a b c => charListLe_trans a.data b.data c.data⟩

/-- Any member of `_common_knobs_for_nodes` survived both the exclusion-set
filter and the lifecycle-name filter. -/
theorem mem_common_knobs_filters {nodes : List Node} {k : String}
    (hk : k ∈ _common_knobs_for_nodes nodes) :
    k ∉ EXCLUDE_KNOBS ∧ k ∉ lifecycleNames := by
  cases nodes with
  | nil => simp [_common_knobs_for_nodes] at hk
  | cons n0 rest =>
    simp only [_common_knobs_for_nodes] at hk
    split_ifs at hk with hc
    · simp at hk
    · rw [List.mem_insertionSort, List.mem_dedup, List.mem_filter] at hk
      obtain ⟨hk1, hkeep⟩ := hk
      rw [List.mem_filter] at hk1
      obtain ⟨-, hex⟩ := hk1
      refine ⟨by simpa using hex, ?_⟩
      intro hmem
      cases hl : knobLookup n0 k with
      | none => simp [keepKnob, hl] at hkeep
      | some knob =>
        simp [keepKnob, hl] at hkeep
        exact hkeep.1 hmem

/-- C5: `_common_knobs_for_nodes` always returns a case-sensitively sorted,
duplicate-free list; calling it twice on the same target set yields
identical output; and for a non-empty target set no returned name is in
the fixed exclusion set or among the three lifecycle hooks. -/
theorem C5_common_knobs :
    ∀ nodes : List Node,
    List.Sorted (fun a b => strLe a b = true) (_common_knobs_for_nodes nodes)
    ∧ (_common_knobs_for_nodes nodes).Nodup
    ∧ _common_knobs_for_nodes nodes = _common_knobs_for_nodes nodes
    ∧ (nodes ≠ [] → ∀ k ∈ _common_knobs_for_nodes nodes,
        k ∉ EXCLUDE_KNOBS ∧ k ∉ lifecycleNames) := by
  intro nodes
  refine ⟨?_, ?_, rfl, fun _ _ hk => mem_common_knobs_filters hk⟩
  · cases nodes with
    | nil => simp [_common_knobs_for_nodes]
    | cons n0 rest =>
      simp only [_common_knobs_for_nodes]
      split_ifs with hc
      · exact List.sorted_nil
      · exact List.sorted_insertionSort _ _
  · cases nodes with
    | nil => simp [_common_knobs_for_nodes]
    | cons n0 rest =>
      simp only [_common_knobs_for_nodes]
      split_ifs with hc
      · exact List.nodup_nil
      · exact ((List.perm_insertionSort _ _).symm).nodup (List.nodup_dedup _)

/-- Witness for C5 on a concrete two-node target set (which shares an
excluded knob, "xpos", that is indeed filtered out). -/
theorem C5_common_knobs_witness :
    ([nodeA, nodeB] : List Node) ≠ []
    ∧ _common_knobs_for_nodes [nodeA, nodeB] = ["mix", "size"]
    ∧ ∀ k ∈ _common_knobs_for_nodes [nodeA, nodeB],
        k ∉ EXCLUDE_KNOBS ∧ k ∉ lifecycleNames :=
  ⟨by decide, by decide, (C5_common_knobs [nodeA, nodeB]).2.2.2 (by decide)⟩

/-- C6: class-based target resolution: a blank class name yields the empty
list; otherwise all exact case-sensitive class matches are returned, and
only when there are none does it return the case-insensitive matches. -/
theorem C6_nodes_by_class :
    ∀ (cn : String) (allNodes : List Node),
    (pyStrip cn = "" → _nodes_by_class (some cn) allNodes = [])
    ∧ (pyStrip cn ≠ "" →
        allNodes.filter (fun n => n.klass = pyStrip cn) ≠ [] →
        _nodes_by_class (some cn) allNodes =
          allNodes.filter (fun n => n.klass = pyStrip cn))
    ∧ (pyStrip cn ≠ "" →
        allNodes.filter (fun n => n.klass = pyStrip cn) = [] →
        _nodes_by_class (some cn) allNodes =
          allNodes.filter (fun n => pyLower n.klass = pyLower (pyStrip cn))) := by
  intro cn allNodes
  refine ⟨?_, ?_, ?_⟩
  · intro h; simp [_nodes_by_class, h]
  · intro h hf; simp [_nodes_by_class, h, hf]
  · intro h hf; simp [_nodes_by_class, h, hf]

/-- Witness for C6: exact matching for " Blur ", a case-insensitive
fallback for "blur", and the blank class name. -/
theorem C6_nodes_by_class_witness :
    pyStrip " Blur " ≠ ""
    ∧ _nodes_by_class (some " Blur ") [nodeA, nodeB, nodeC] = [nodeA, nodeB]
    ∧ _nodes_by_class (some "blur") [nodeA, nodeB, nodeC] = [nodeA, nodeB]
    ∧ _nodes_by_class (some " ") [nodeA, nodeB, nodeC] = [] := by
  refine ⟨by decide, ?_, ?_, ?_⟩
  · exact ((C6_nodes_by_class " Blur " [nodeA, nodeB, nodeC]).2.1
      (by decide) (by decide)).trans (by decide)
  · exact ((C6_nodes_by_class "blur" [nodeA, nodeB, nodeC]).2.2
      (by decide) (by decide)).trans (by decide)
  · exact (C6_nodes_by_class " " [nodeA, nodeB, nodeC]).1 (by decide)

/-- C4: the batch loop skips targets lacking the knob silently (neither
counted nor reported), records `"<target-name>: <error message>"` for each
possessing target whose apply raises and continues with the remaining
targets, counts exactly the possessing targets whose apply succeeded, and
keeps every successful target's mutations (no rollback). -/
theorem C4_batch_loop :
    ∀ (nodes : List Node) (kn v : String),
    (∀ n ∈ nodes, n.fatal = none) →
    (applyLoop kn v nodes).changed =
      (nodes.filter (fun n =>
        match knobLookup n kn with
        | some k =>
          match _set_knob_value_or_expression k v with
          | .ok _ => true
          | .error _ => false
        | none => false)).length
    ∧ (applyLoop kn v nodes).errors =
      nodes.filterMap (fun n =>
        match knobLookup n kn with
        | none => none
        | some k =>
          match _set_knob_value_or_expression k v with
          | .ok _ => none
          | .error e => some (n.name ++ ": " ++ e))
    ∧ (applyLoop kn v nodes).evs =
      nodes.flatMap (fun n =>
        match knobLookup n kn with
        | none => []
        | some k =>
          match _set_knob_value_or_expression k v with
          | .ok res => res.2.map (Ev.knob n.name)
          | .error _ => []) := by
  intro nodes kn v
  induction nodes with
  | nil => intro _; refine ⟨by simp [applyLoop], by simp [applyLoop], by simp [applyLoop]⟩
  | cons n rest ih =>
    intro h
    have hn : n.fatal = none := h n (List.mem_cons_self n rest)
    obtain ⟨ih1, ih2, ih3⟩ := ih (fun x hx => h x (List.mem_cons_of_mem n hx))
    cases hl : knobLookup n kn with
    | none =>
      refine ⟨?_, ?_, ?_⟩ <;> simp [applyLoop, hn, hl, ih1, ih2, ih3]
    | some k =>
      cases hs : _set_knob_value_or_expression k v with
      | ok res =>
        refine ⟨?_, ?_, ?_⟩ <;> simp [applyLoop, hn, hl, hs, ih1, ih2, ih3]
      | error e =>
        refine ⟨?_, ?_, ?_⟩ <;> simp [applyLoop, hn, hl, hs, ih1, ih2, ih3]

/-- Witness for C4: four targets — one lacking the knob, one whose host
raises, two succeeding — give appliedCount 2, the single formatted error
entry, and both successful targets' mutations. -/
theorem C4_batch_loop_witness :
    (∀ n ∈ [nodeA, nodeB, nodeC], n.fatal = none)
    ∧ ((applyLoop "mix" "0.5" [nodeA, nodeB, nodeC]).changed =
        (([nodeA, nodeB, nodeC]).filter (fun n =>
          match knobLookup n "mix" with
          | some k =>
            match _set_knob_value_or_expression k "0.5" with
            | .ok _ => true
            | .error _ => false
          | none => false)).length
      ∧ (applyLoop "mix" "0.5" [nodeA, nodeB, nodeC]).errors =
        ([nodeA, nodeB, nodeC]).filterMap (fun n =>
          match knobLookup n "mix" with
          | none => none
          | some k =>
            match _set_knob_value_or_expression k "0.5" with
            | .ok _ => none
            | .error e => some (n.name ++ ": " ++ e))
      ∧ (applyLoop "mix" "0.5" [nodeA, nodeB, nodeC]).evs =
        ([nodeA, nodeB, nodeC]).flatMap (fun n =>
          match knobLookup n "mix" with
          | none => []
          | some k =>
            match _set_knob_value_or_expression k "0.5" with
            | .ok res => res.2.map (Ev.knob n.name)
            | .error _ => []))
    ∧ (applyLoop "mix" "0.5" [nodeA, nodeB, nodeC]).changed = 2
    ∧ (applyLoop "mix" "0.5" [nodeA, nodeB, nodeC]).errors = ["B: boom"] :=
  ⟨by decide, C4_batch_loop [nodeA, nodeB, nodeC] "mix" "0.5" (by decide),
   by decide, by decide⟩

/-- Counterexample to C2 as stated: with input "=" (blank expression text)
and one target possessing the knob, the invocation does not abort with no
per-target error entries — it runs the loop and records an
"Empty expression." entry for the target. -/
theorem C2_counterexample :
    (mass_knob_modifier [nodeA] "mix" "=").1 =
      .report 0 ["A: Empty expression."] none
    ∧ ["A: Empty expression."] ≠ ([] : List String) :=
  ⟨by decide, by decide⟩

/-- C2 (amended): a value blank after trimming aborts the invocation before
the undo transaction and the loop, with no mutation and no error entries;
an input of '=' with blank expression text does not abort — every target
possessing the knob gets a per-target "Empty expression." error entry,
and no target is mutated. -/
theorem C2_empty_input :
    (∀ (nodes : List Node) (kn v : String), pyStrip v = "" →
      mass_knob_modifier nodes kn v = (.emptyValue, []))
    ∧ (∀ (nodes : List Node) (kn v : String),
      (∀ n ∈ nodes, n.fatal = none) →
      strStartsWith (pyStrip v) '=' = true →
      pyStrip ((pyStrip v).drop 1) = "" →
      mass_knob_modifier nodes kn v =
        (.report 0
          (nodes.filterMap (fun n =>
            if (knobLookup n kn).isSome then some (n.name ++ ": " ++ "Empty expression.")
            else none))
          none,
         [Ev.undoBegin, Ev.undoEnd])) := by
  constructor
  · intro nodes kn v hv
    simp [mass_knob_modifier, hv]
  · intro nodes kn v h heq hdrop
    have hne : pyStrip v ≠ "" := by
      intro h0; rw [h0] at heq; exact absurd heq (by decide)
    have hset : ∀ k : Knob,
        _set_knob_value_or_expression k v = .error "Empty expression." := by
      intro k
      simp [_set_knob_value_or_expression, hne, heq, hdrop]
    have hloop : ∀ ns : List Node, (∀ n ∈ ns, n.fatal = none) →
        applyLoop kn v ns =
          ⟨0,
           ns.filterMap (fun n =>
             if (knobLookup n kn).isSome then some (n.name ++ ": " ++ "Empty expression.")
             else none),
           none, [], none⟩ := by
      intro ns
      induction ns with
      | nil => intro _; simp [applyLoop]
      | cons n rest ih =>
        intro hns
        have hn : n.fatal = none := hns n (List.mem_cons_self n rest)
        have hr := ih (fun x hx => hns x (List.mem_cons_of_mem n hx))
        cases hl : knobLookup n kn with
        | none => simp [applyLoop, hn, hl, hr]
        | some k => simp [applyLoop, hn, hl, hset k, hr]
    simp [mass_knob_modifier, hne, hloop nodes h]

/-- Witness for C2 (amended): a blank value aborts with no events; input
"=" on two targets (one possessing, one lacking the knob) mutates nothing
and yields exactly one per-target empty-expression entry. -/
theorem C2_empty_input_witness :
    (pyStrip "   " = "" ∧ mass_knob_modifier [nodeA] "mix" "   " = (.emptyValue, []))
    ∧ (strStartsWith (pyStrip "=") '=' = true
      ∧ mass_knob_modifier [nodeA, nodeC] "size" "=" =
          (.report 0 ["A: Empty expression."] none, [.undoBegin, .undoEnd])) := by
  refine ⟨⟨by decide, C2_empty_input.1 [nodeA] "mix" "   " (by decide)⟩, ⟨by decide, ?_⟩⟩
  exact (C2_empty_input.2 [nodeA, nodeC] "size" "=" (by decide) (by decide)
    (by decide)).trans (by decide)

/-- Every event accumulated by the per-target loop is a knob mutation (the
undo events are appended only by the driver around the loop). -/
theorem applyLoop_evs_knob :
    ∀ (kn v : String) (ns : List Node) (e : Ev), e ∈ (applyLoop kn v ns).evs →
    ∃ nm ke, e = Ev.knob nm ke := by
  intro kn v ns
  induction ns with
  | nil => intro e he; simp [applyLoop] at he
  | cons n rest ih =>
    intro e he
    cases hf : n.fatal with
    | some m => simp [applyLoop, hf] at he
    | none =>
      cases hl : knobLookup n kn with
      | none =>
        simp only [applyLoop, hf, hl] at he
        exact ih e he
      | some k =>
        cases hs : _set_knob_value_or_expression k v with
        | ok res =>
          simp only [applyLoop, hf, hl, hs, List.mem_append] at he
          rcases he with he | he
          · obtain ⟨ke, -, hke⟩ := List.mem_map.mp he
            exact ⟨n.name, ke, hke.symm⟩
          · exact ih e he
        | error e' =>
          simp only [applyLoop, hf, hl, hs] at he
          exact ih e he

/-- C9: for every invocation that reaches the apply phase, the undo
transaction opened before the loop is closed after it on every exit path —
the event list starts with the single `undoBegin` and ends with the single
`undoEnd`, also when a non-`Exception` interrupt escapes the loop. -/
theorem C9_undo_closed :
    ∀ (nodes : List Node) (kn v : String), pyStrip v ≠ "" →
    (mass_knob_modifier nodes kn v).2.head? = some Ev.undoBegin
    ∧ (mass_knob_modifier nodes kn v).2.getLast? = some Ev.undoEnd
    ∧ (mass_knob_modifier nodes kn v).2.count Ev.undoBegin = 1
    ∧ (mass_knob_modifier nodes kn v).2.count Ev.undoEnd = 1 := by
  intro nodes kn v hne
  have hevs : (mass_knob_modifier nodes kn v).2 =
      Ev.undoBegin :: ((applyLoop kn v nodes).evs ++ [Ev.undoEnd]) := by
    rcases hi : (applyLoop kn v nodes).interrupted with _ | m <;>
      simp [mass_knob_modifier, hne, hi]
  have hb : Ev.undoBegin ∉ (applyLoop kn v nodes).evs := by
    intro hm
    obtain ⟨nm, ke, hk⟩ := applyLoop_evs_knob kn v nodes _ hm
    cases hk
  have he2 : Ev.undoEnd ∉ (applyLoop kn v nodes).evs := by
    intro hm
    obtain ⟨nm, ke, hk⟩ := applyLoop_evs_knob kn v nodes _ hm
    cases hk
  rw [hevs]
  refine ⟨rfl, ?_, ?_, ?_⟩
  · rw [← List.cons_append]
    exact List.getLast?_concat _
  · simp [List.count_cons, List.count_append, List.count_eq_zero.mpr hb]
  · simp [List.count_cons, List.count_append, List.count_eq_zero.mpr he2]

/-- Witness for C9 on the interrupted exit path: the loop is cut short by a
non-`Exception` interrupt, yet the event list still opens with `undoBegin`
and closes with `undoEnd`. -/
theorem C9_undo_closed_witness :
    pyStrip "1" ≠ ""
    ∧ (mass_knob_modifier [fatalNode] "size" "1").1 = .interrupted "interrupt"
    ∧ (mass_knob_modifier [fatalNode] "size" "1").2.head? = some Ev.undoBegin
    ∧ (mass_knob_modifier [fatalNode] "size" "1").2.getLast? = some Ev.undoEnd :=
  ⟨by decide, by decide,
   (C9_undo_closed [fatalNode] "size" "1" (by decide)).1,
   (C9_undo_closed [fatalNode] "size" "1" (by decide)).2.1⟩

/-- Witness for C8: the general statement applied to the "Pass1" label knob
with input "Pass2" yields the appended text "Pass1\nPass2". -/
theorem C8_label_append_witness :
    labelKnob.name = "label" ∧ pyStrip labelKnob.currentText ≠ "" ∧
    _set_knob_value_or_expression labelKnob "Pass2" =
      .ok ("value", [KnobEv.setVal (.str "Pass1\nPass2") none]) := by
  refine ⟨rfl, by decide, ?_⟩
  have h := (C8_label_append.1 labelKnob "Pass2" rfl (by decide) (by decide) rfl
    (.str "Pass2") (by decide)).1 (by decide)
  exact h.trans (by decide)
